import Mathlib

/-!
Verification of the `gosdk-http-request-builder` repository (Go).

The development shallowly embeds the request-build-and-response-classification
pipeline of `src/pkg/builder/http_request_builder.go` together with the data
model of `src/pkg/http_response.go` and the `Response[E]` envelope.

Modelling conventions:
* Go `map[string]string` is an association list (`StrMap`) with unique keys,
  updated by `mapSet` (Go map assignment: overwrite or add).
* Byte slices are `List Nat` (each entry a byte value).
* The Go standard library collaborators (`net/url`, `net/http`,
  `encoding/json`) are modelled as executable Lean functions (`urlParse`,
  `parseQueryGo`, `encodeValues`) or as per-execution oracles: the transport
  round trip becomes a `TransportOutcome` value and `json.Unmarshal` into
  `Response[E]` becomes a `decode : List Nat → Response E × Bool` parameter
  returning the value left in the zero-initialized target together with the
  error flag - on a failed unmarshal the target may have been partially
  populated before the field-level error was reported, and stays zero only
  when decoding made no progress.
* `io.ReadAll(resp.Body)` returns the bytes read so far together with an
  error; the outcome pair is carried in `TransportOutcome.ok` as
  `readBytes`/`readErr`, and - exactly as the source's `body, _ :=` - the
  error component is discarded by `doRaw`.
* Wall-clock timing (`execTime`) and the context-carried debug sink
  (`setDebugInfo`) are side channels with no effect on the returned values
  and are not modelled.
-/

/-- Go `map[string]string`, as an association list with unique keys. -/
abbrev StrMap := List (String × String)

/-- Go map assignment `m[k] = v`: overwrite an existing key or append. -/
def mapSet (m : StrMap) (k v : String) : StrMap :=
  match m with
  | [] => [(k, v)]
  | (k', v') :: rest => if k' = k then (k, v) :: rest else (k', v') :: mapSet rest k v

/-- Go map read `m[k]` (with presence flag). -/
def mapGet (m : StrMap) (k : String) : Option String :=
  match m with
  | [] => none
  | (k', v') :: rest => if k' = k then some v' else mapGet rest k

/-- `url.Values`: a map from keys to ordered value lists, as an association
list with unique keys (Go map iteration order is hidden by `Encode`, which
sorts keys). -/
abbrev Values := List (String × List String)

/-- `url.Values.Get`-style lookup returning the whole value list. -/
def valuesGet (vs : Values) (k : String) : Option (List String) :=
  match vs with
  | [] => none
  | (k', l) :: rest => if k' = k then some l else valuesGet rest k

/-- `url.Values.Add`: append `v` to the list stored under `k` (used by
query parsing). -/
def valuesAdd (vs : Values) (k v : String) : Values :=
  match vs with
  | [] => [(k, [v])]
  | (k', l) :: rest =>
    if k' = k then (k', l ++ [v]) :: rest else (k', l) :: valuesAdd rest k v

/-- `url.Values.Set`: replace the whole list stored under `k` by `[v]`. -/
def valuesSet (vs : Values) (k v : String) : Values :=
  match vs with
  | [] => [(k, [v])]
  | (k', l) :: rest =>
    if k' = k then (k, [v]) :: rest else (k', l) :: valuesSet rest k v

/-- Splits a character list at the first occurrence of `sep`; the second
component is `none` when `sep` does not occur (Go `strings.Cut`). -/
def splitFirst (sep : Char) : List Char → List Char × Option (List Char)
  | [] => ([], none)
  | c :: cs =>
    if c = sep then ([], some cs)
    else
      let p := splitFirst sep cs
      (c :: p.1, p.2)

/-- Splits a character list at every occurrence of `sep`. -/
def splitAll (sep : Char) : List Char → List (List Char)
  | [] => [[]]
  | c :: cs =>
    if c = sep then [] :: splitAll sep cs
    else
      match splitAll sep cs with
      | [] => [[c]]
      | p :: ps => (c :: p) :: ps

/-- Hexadecimal digit value, `none` for a non-hex character
(`net/url.unhex`). -/
def hexVal (c : Char) : Option Nat :=
  if '0' ≤ c ∧ c ≤ '9' then some (c.toNat - 48)
  else if 'a' ≤ c ∧ c ≤ 'f' then some (c.toNat - 97 + 10)
  else if 'A' ≤ c ∧ c ≤ 'F' then some (c.toNat - 65 + 10)
  else none

/-- `net/url.QueryUnescape` on a character list: `+` becomes a space, `%HH`
becomes the byte `HH`, and a malformed `%` escape is an error (`none`).
Decoded bytes are mapped directly to characters (ASCII simplification of
Go's byte-string conversion). -/
def queryUnescapeChars : List Char → Option (List Char)
  | [] => some []
  | '%' :: a :: b :: rest => do
    let ha ← hexVal a
    let hb ← hexVal b
    let r ← queryUnescapeChars rest
    pure (Char.ofNat (16 * ha + hb) :: r)
  | '%' :: _ => none
  | '+' :: rest => (queryUnescapeChars rest).map (fun r => ' ' :: r)
  | c :: rest => (queryUnescapeChars rest).map (fun r => c :: r)

/-- The UTF-8 byte sequence of a character. -/
def utf8Bytes (c : Char) : List Nat :=
  let n := c.toNat
  if n < 128 then [n]
  else if n < 2048 then [192 + n / 64, 128 + n % 64]
  else if n < 65536 then [224 + n / 4096, 128 + n / 64 % 64, 128 + n % 64]
  else [240 + n / 262144, 128 + n / 4096 % 64, 128 + n / 64 % 64, 128 + n % 64]

/-- Bytes kept verbatim by `net/url.QueryEscape`: ASCII alphanumerics and
`-_.~`. -/
def isUnreservedByte (c : Nat) : Bool :=
  (65 ≤ c && c ≤ 90) || (97 ≤ c && c ≤ 122) || (48 ≤ c && c ≤ 57) ||
    c = 45 || c = 95 || c = 46 || c = 126

/-- Upper-case hexadecimal digit of `n < 16`. -/
def upperHexDigit (n : Nat) : Char :=
  if n < 10 then Char.ofNat (48 + n) else Char.ofNat (55 + n)

/-- `net/url.QueryEscape`: unreserved bytes kept, space becomes `+`, every
other byte becomes `%HH`. -/
def queryEscape (s : String) : String :=
  String.mk ((s.data.flatMap utf8Bytes).flatMap fun c =>
    if isUnreservedByte c then [Char.ofNat c]
    else if c = 32 then ['+']
    else ['%', upperHexDigit (c / 16), upperHexDigit (c % 16)])

/-- `net/url.ParseQuery` as called by `URL.Query()` (errors swallowed):
split on `&`, skip empty keys and keys containing `;`, cut each pair at the
first `=`, unescape key and value, and skip the pair when either unescape
fails. -/
def parseQueryGo (s : String) : Values :=
  (splitAll '&' s.data).foldl
    (fun acc part =>
      if part = [] then acc
      else if part.contains ';' then acc
      else
        let p := splitFirst '=' part
        match queryUnescapeChars p.1, queryUnescapeChars (p.2.getD []) with
        | some k, some v => valuesAdd acc (String.mk k) (String.mk v)
        | _, _ => acc)
    []

/-- Lexicographic comparison of character lists by code point (the order
`sort.Strings` uses inside `url.Values.Encode`; byte-wise and code-point
order agree on ASCII keys). -/
def charListLe : List Char → List Char → Bool
  | [], _ => true
  | _ :: _, [] => false
  | a :: as, b :: bs =>
    if a.toNat < b.toNat then true
    else if b.toNat < a.toNat then false
    else charListLe as bs

/-- Lexicographic string comparison by code point. -/
def strLe (a b : String) : Bool := charListLe a.data b.data

/-- `url.Values.Encode`: keys sorted, each key/value pair escaped as
`k=v` and the pairs joined by `&`; multiple values of one key stay in
order. -/
def encodeValues (vs : Values) : String :=
  let sorted := List.insertionSort (fun p q : String × List String => strLe p.1 q.1 = true) vs
  String.intercalate "&"
    (sorted.flatMap fun p => p.2.map fun v => queryEscape p.1 ++ "=" ++ queryEscape v)

/-- The parsed form of a URL, reduced to what `buildURL` touches: everything
before the query (scheme, authority, path), the raw query, and the fragment
(`""` when absent). -/
structure GoURL where
  base : String
  rawQuery : String
  fragment : String
deriving DecidableEq, Repr

/-- `net/url.Parse`, reduced to the behaviour the pipeline relies on: the
parse fails on ASCII control characters, otherwise the fragment is cut at
the first `#` and the raw query at the first `?` of the remainder. -/
def urlParse (s : String) : Option GoURL :=
  if s.data.any (fun c => c.toNat < 32 || c.toNat = 127) then none
  else
    let f := splitFirst '#' s.data
    let q := splitFirst '?' f.1
    some ⟨String.mk q.1, String.mk (q.2.getD []), String.mk (f.2.getD [])⟩

/-- `URL.String()`: base, then `?`-query when non-empty, then `#`-fragment
when non-empty. -/
def urlString (u : GoURL) : String :=
  u.base ++ (if u.rawQuery = "" then "" else "?" ++ u.rawQuery) ++
    (if u.fragment = "" then "" else "#" ++ u.fragment)

/-- The decoded response envelope `Response[E]` of
`src/pkg/httprequestbuilder/response.go` (a `success` flag plus a generic
payload). -/
structure Response (E : Type) where
  Success : Bool
  Data : E
deriving DecidableEq, Repr

/-- The Go zero value of `Response[E]`. -/
def Response.zero (E : Type) [Inhabited E] : Response E := ⟨false, default⟩

/-- `HttpResponse[E]` of `src/pkg/http_response.go`. `ErrorsMap` has Go type
`map[string]interface{}`; only its (always empty) key set matters here, so
its values are abstracted to strings. -/
structure HttpResponse (E : Type) where
  Status : String
  Body : List Nat
  StatusCode : Nat
  Url : String
  Method : String
  Headers : StrMap
  Result : Response E
  ErrorsMap : StrMap
deriving DecidableEq, Repr

/-- The Go zero value of `HttpResponse[E]` with `Url`/`Method` filled in,
i.e. `&HttpResponse[E]{Url: finalURL, Method: b.method}` as built by `do`. -/
def HttpResponse.placeholder (E : Type) [Inhabited E] (url method : String) :
    HttpResponse E :=
  ⟨"", [], 0, url, method, [], Response.zero E, []⟩

/-- Builder state of `HttpRequestBuilder[E]`. The `body` reader is modelled
by the bytes it yields; `transport`, `request`, `ctx`, `timeout`,
`responseDataPresentation` and `execTime` do not influence the values the
pipeline returns and are omitted (the transport's behaviour enters as a
`TransportOutcome` oracle, the timeout and context only through that
oracle's `networkError` case). `headers = []` plays the role of the nil map;
`ensureHeaders`'s nil-guard is therefore the identity here. -/
structure HttpRequestBuilder (E : Type) where
  url : String
  method : String
  headers : StrMap
  queryParams : StrMap
  body : Option (List Nat)
  rawBodyBytes : List Nat
  throwUnmarshalError : Bool
  response : Option (HttpResponse E)
deriving DecidableEq, Repr

/-- `newBuilder[E](ctx, rawURL, method)`: fresh state with strict decoding
on (`throwUnmarshalError: true`). -/
def newBuilder (E : Type) (rawURL method : String) : HttpRequestBuilder E :=
  ⟨rawURL, method, [], [], none, [], true, none⟩

/-- The error taxonomy of the pipeline (spec section 7). `serverError`
carries the method, resolved URL and status code of
`fmt.Errorf("http %s %s -> %d", ...)`. -/
inductive DoErr where
  | invalidURL
  | requestConstructionError
  | networkError
  | unmarshalError
  | serverError (method url : String) (statusCode : Nat)
deriving DecidableEq, Repr

/-- Outcome of `client.Do(req)` for one execution: a transport-level
failure, or a response with status line, status code, the
`io.ReadAll(resp.Body)` outcome pair (`readBytes` = bytes read so far,
`readErr` = whether the read failed) and the response header mapping. -/
inductive TransportOutcome where
  | networkError
  | ok (status : String) (statusCode : Nat) (readBytes : List Nat)
      (readErr : Bool) (respHeaders : StrMap)
deriving DecidableEq, Repr

/-- `SetRequestHeaders`: replaces the header mapping wholesale. -/
def HttpRequestBuilder.SetRequestHeaders (b : HttpRequestBuilder E) (h : StrMap) :
    HttpRequestBuilder E :=
  { b with headers := h }

/-- `SetQueryParams`: replaces the query-parameter mapping wholesale. -/
def HttpRequestBuilder.SetQueryParams (b : HttpRequestBuilder E) (q : StrMap) :
    HttpRequestBuilder E :=
  { b with queryParams := q }

/-- `SetThrowUnmarshalError`: toggles strict decoding. -/
def HttpRequestBuilder.SetThrowUnmarshalError (b : HttpRequestBuilder E) (v : Bool) :
    HttpRequestBuilder E :=
  { b with throwUnmarshalError := v }

/-- `SetJSONBody(v)`: `marshal` stands for `json.Marshal` applied to the Go
value (`none` = marshal error, in which case the error is logged and the
builder returned unchanged); on success the body bytes are stored and
`Content-Type: application/json` is set (map assignment = overwrite). -/
def HttpRequestBuilder.SetJSONBody (b : HttpRequestBuilder E)
    (marshal : Option (List Nat)) : HttpRequestBuilder E :=
  match marshal with
  | none => b
  | some data =>
    { b with
      rawBodyBytes := data
      body := some data
      headers := mapSet b.headers "Content-Type" "application/json" }

/-- `SetXMLBody(v)`: same contract with `xml.Marshal` and
`Content-Type: application/xml`. -/
def HttpRequestBuilder.SetXMLBody (b : HttpRequestBuilder E)
    (marshal : Option (List Nat)) : HttpRequestBuilder E :=
  match marshal with
  | none => b
  | some data =>
    { b with
      rawBodyBytes := data
      body := some data
      headers := mapSet b.headers "Content-Type" "application/xml" }

/-- `buildURL`: with no query parameters the raw URL is returned untouched;
otherwise the URL is parsed (parse failure is the `InvalidURL` error), the
existing query is loaded via `u.Query()`, every configured key is `Set`
(the keys of a Go map are distinct, so the hidden iteration order is
irrelevant), and the re-encoded URL is rendered. -/
def HttpRequestBuilder.buildURL (b : HttpRequestBuilder E) : Except DoErr String :=
  if b.queryParams.length = 0 then Except.ok b.url
  else
    match urlParse b.url with
    | none => Except.error DoErr.invalidURL
    | some u =>
      let q := b.queryParams.foldl (fun q p => valuesSet q p.1 p.2) (parseQueryGo u.rawQuery)
      Except.ok (urlString { u with rawQuery := encodeValues q })

/-- `do`: build the URL, construct the outbound request
(`http.NewRequestWithContext` re-parses the final URL; its failure is the
`RequestConstructionError`), run the transport, and store the captured
response. On a transport failure the stored response holds only the
URL/method placeholders; otherwise status line, status code and the bytes
`io.ReadAll` produced are recorded (the read error - and the response
header mapping - are discarded, as in the source). Returns the updated
builder and either the stored response or the error. -/
def HttpRequestBuilder.doRaw [Inhabited E] (tr : TransportOutcome)
    (b : HttpRequestBuilder E) :
    HttpRequestBuilder E × Except DoErr (HttpResponse E) :=
  match b.buildURL with
  | Except.error e => (b, Except.error e)
  | Except.ok finalURL =>
    match urlParse finalURL with
    | none => (b, Except.error DoErr.requestConstructionError)
    | some _ =>
      match tr with
      | TransportOutcome.networkError =>
        ({ b with response := some (HttpResponse.placeholder E finalURL b.method) },
         Except.error DoErr.networkError)
      | TransportOutcome.ok st code readBytes _ _ =>
        let resp : HttpResponse E :=
          { HttpResponse.placeholder E finalURL b.method with
            Status := st, StatusCode := code, Body := readBytes }
        ({ b with response := some resp }, Except.ok resp)

/-- `Do()`: runs `do` and measures wall-clock time (the timing side channel
is not modelled). -/
def HttpRequestBuilder.Do [Inhabited E] (tr : TransportOutcome)
    (b : HttpRequestBuilder E) :
    HttpRequestBuilder E × Except DoErr (HttpResponse E) :=
  b.doRaw tr

/-- `GetResult()`: run `Do`, propagate its error; unmarshal the body into
the envelope. `decode` stands for `json.Unmarshal(b.response.Body, &r)`
applied to a target `r` that starts at its zero value: it returns the
value left in `r` after the call together with the error flag. On failure
`json.Unmarshal` may have partially populated the target before reporting
a field-level type error (it decodes what it can), and leaves it at zero
only when decoding made no progress (e.g. a non-JSON body). With strict
decoding on, an unmarshal error aborts the call before `Result` is
stored; otherwise the (possibly partially populated) envelope is stored;
then classify: status ≥ 500 returns the server error and drops the
result, anything below returns the populated response. Returns the final
builder state, the returned response (or `none`) and the returned error
(or `none`). -/
def HttpRequestBuilder.GetResult [Inhabited E] (tr : TransportOutcome)
    (decode : List Nat → Response E × Bool) (b : HttpRequestBuilder E) :
    HttpRequestBuilder E × Option (HttpResponse E) × Option DoErr :=
  match b.Do tr with
  | (b1, Except.error e) => (b1, none, some e)
  | (b1, Except.ok resp) =>
    let dec := decode resp.Body
    if dec.2 && b1.throwUnmarshalError then
      (b1, none, some DoErr.unmarshalError)
    else
      let r := dec.1
      let resp1 := { resp with Result := r }
      let b2 := { b1 with response := some resp1 }
      if 500 ≤ resp1.StatusCode then
        (b2, none, some (DoErr.serverError b1.method resp1.Url resp1.StatusCode))
      else
        (b2, some resp1, none)

/-- The for-loop of `buildURL`: `q.Set(k, v)` for every configured
parameter. -/
def setAllParams (q : Values) (ps : StrMap) : Values :=
  ps.foldl (fun q p => valuesSet q p.1 p.2) q

instance {α β : Type} [DecidableEq α] [DecidableEq β] : DecidableEq (Except α β) :=
  fun a b =>
    match a, b with
    | Except.error x, Except.error y =>
      if h : x = y then isTrue (by rw [h]) else isFalse (by simp [h])
    | Except.error _, Except.ok _ => isFalse (by simp)
    | Except.ok _, Except.error _ => isFalse (by simp)
    | Except.ok x, Except.ok y =>
      if h : x = y then isTrue (by rw [h]) else isFalse (by simp [h])

/-- Concrete builder for the C3 witness: base URL with an embedded query,
one overwritten key and one fresh key. -/
def bEx3 : HttpRequestBuilder Unit :=
  { newBuilder Unit "http://h/p?a=1&b=2" "GET" with
    queryParams := [("b", "9"), ("c", "3")] }

/-- Concrete builder shared by the execution witnesses below. -/
def bW : HttpRequestBuilder Nat := newBuilder Nat "http://h" "GET"

/-- Decoder used by the C1 witness: every body decodes cleanly to a fixed
envelope. -/
def decodeConst : List Nat → Response Nat × Bool := fun _ => (⟨true, 1⟩, false)

/-- Decoder modelling `json.Unmarshal` on a body that is not JSON at all:
no field is decoded, the target stays at its zero value and the error flag
is set. -/
def decodeGarbage : List Nat → Response Nat × Bool :=
  fun _ => (Response.zero Nat, true)

/-- Decoder modelling `json.Unmarshal` of a body such as
`\x7b"success":true,"data":"x"\x7d` into `Response[int]`: the `success`
field is decoded into the target before the type mismatch on `data` is
reported, so the call leaves `Success = true` (a non-zero envelope) and
returns an error. -/
def decodePartial : List Nat → Response Nat × Bool :=
  fun _ => (⟨true, 0⟩, true)

/-- The ASCII bytes of `\x7b"success":true,"data":"x"\x7d`, the body the
partial decoder above stands for. -/
def partialJSONBody : List Nat :=
  [123, 34, 115, 117, 99, 99, 101, 115, 115, 34, 58, 116, 114, 117, 101, 44,
   34, 100, 97, 116, 97, 34, 58, 34, 120, 34, 125]


theorem mapGet_mapSet_self (m : StrMap) (k v : String) :
    mapGet (mapSet m k v) k = some v := by
  induction m with
  | nil => simp [mapSet, mapGet]
  | cons p rest ih =>
    by_cases h : p.1 = k <;> simp [mapSet, mapGet, h, ih]

theorem mapGet_mapSet_ne (m : StrMap) (k v k' : String) (h : k' ≠ k) :
    mapGet (mapSet m k v) k' = mapGet m k' := by
  have h2 : ¬(k = k') := fun hh => h hh.symm
  induction m with
  | nil => simp [mapSet, mapGet, h2]
  | cons p rest ih =>
    by_cases hp : p.1 = k
    · simp [mapSet, mapGet, hp, h2]
    · simp [mapSet, mapGet, hp, ih]

theorem valuesGet_valuesSet_self (q : Values) (k v : String) :
    valuesGet (valuesSet q k v) k = some [v] := by
  induction q with
  | nil => simp [valuesSet, valuesGet]
  | cons p rest ih =>
    by_cases h : p.1 = k <;> simp [valuesSet, valuesGet, h, ih]

theorem valuesGet_valuesSet_ne (q : Values) (k v k' : String) (h : k' ≠ k) :
    valuesGet (valuesSet q k v) k' = valuesGet q k' := by
  have h2 : ¬(k = k') := fun hh => h hh.symm
  induction q with
  | nil => simp [valuesSet, valuesGet, h2]
  | cons p rest ih =>
    by_cases hp : p.1 = k
    · simp [valuesSet, valuesGet, hp, h2]
    · simp [valuesSet, valuesGet, hp, ih]

theorem setAllParams_not_mem (ps : StrMap) (q : Values) (k : String)
    (h : k ∉ ps.map Prod.fst) :
    valuesGet (setAllParams q ps) k = valuesGet q k := by
  induction ps generalizing q with
  | nil => simp [setAllParams]
  | cons p rest ih =>
    simp only [List.map_cons, List.mem_cons] at h
    push_neg at h
    have step : setAllParams q (p :: rest) = setAllParams (valuesSet q p.1 p.2) rest := rfl
    rw [step, ih _ h.2, valuesGet_valuesSet_ne _ _ _ _ h.1]

theorem setAllParams_mem (ps : StrMap) (q : Values) (k v : String) :
    (ps.map Prod.fst).Nodup → (k, v) ∈ ps →
    valuesGet (setAllParams q ps) k = some [v] := by
  induction ps generalizing q with
  | nil => intro _ h; simp at h
  | cons p rest ih =>
    intro hnd hmem
    simp only [List.map_cons, List.nodup_cons] at hnd
    rcases List.mem_cons.mp hmem with heq | hrest
    · cases heq
      have hnot : k ∉ rest.map Prod.fst := by simpa using hnd.1
      show valuesGet (setAllParams (valuesSet q k v) rest) k = some [v]
      rw [setAllParams_not_mem _ _ _ hnot, valuesGet_valuesSet_self]
    · show valuesGet (setAllParams (valuesSet q p.1 p.2) rest) k = some [v]
      exact ih _ hnd.2 hrest

theorem charListLe_total (a b : List Char) :
    charListLe a b = true ∨ charListLe b a = true := by
  induction a generalizing b with
  | nil => left; rfl
  | cons x xs ih =>
    cases b with
    | nil => right; rfl
    | cons y ys =>
      rcases Nat.lt_trichotomy x.toNat y.toNat with h | h | h
      · left; simp [charListLe, h]
      · rcases ih ys with hh | hh
        · left; simp [charListLe, h, hh]
        · right; simp [charListLe, h.symm, hh]
      · right; simp [charListLe, h]

theorem charListLe_cons_iff (x y : Char) (xs ys : List Char) :
    charListLe (x :: xs) (y :: ys) = true ↔
      x.toNat < y.toNat ∨ (x.toNat = y.toNat ∧ charListLe xs ys = true) := by
  simp only [charListLe]
  split_ifs with h1 h2
  · simp [h1]
  · exact iff_of_false (by simp) (by rintro (h | ⟨h, _⟩) <;> omega)
  · have hEq : x.toNat = y.toNat := by omega
    simp [hEq]

theorem charListLe_trans (a b c : List Char) :
    charListLe a b = true → charListLe b c = true → charListLe a c = true := by
  induction a generalizing b c with
  | nil => intro _ _; rfl
  | cons x xs ih =>
    cases b with
    | nil => intro h _; simp [charListLe] at h
    | cons y ys =>
      cases c with
      | nil => intro _ h; simp [charListLe] at h
      | cons z zs =>
        intro h1 h2
        rw [charListLe_cons_iff] at h1 h2 ⊢
        rcases h1 with h1 | ⟨h1e, h1r⟩
        · rcases h2 with h2 | ⟨h2e, _⟩
          · exact Or.inl (Nat.lt_trans h1 h2)
          · exact Or.inl (by omega)
        · rcases h2 with h2 | ⟨h2e, h2r⟩
          · exact Or.inl (by omega)
          · exact Or.inr ⟨h1e.trans h2e, ih ys zs h1r h2r⟩

theorem insertionSort_keys_sorted (vs : Values) :
    (((List.insertionSort (fun p q : String × List String => strLe p.1 q.1 = true) vs).map
        Prod.fst).Sorted (fun a b => strLe a b = true)) := by
  letI : IsTotal (String × List String) (fun p q => strLe p.1 q.1 = true) :=
    ⟨fun a b => charListLe_total a.1.data b.1.data⟩
  letI : IsTrans (String × List String) (fun p q => strLe p.1 q.1 = true) :=
    ⟨fun a b c h1 h2 => charListLe_trans a.1.data b.1.data c.1.data h1 h2⟩
  exact List.Pairwise.map Prod.fst (fun _ _ h => h)
    (List.sorted_insertionSort (fun p q : String × List String => strLe p.1 q.1 = true) vs)

/-- C3: with no configured query parameters the composed URL is the base URL
unchanged; otherwise the base URL is parsed (failure = `InvalidURL`), every
configured key is set into the existing query - overwriting a same-named
key, adding a fresh one, altering no other key - and the query string is
re-encoded in escaped form with keys sorted. -/
theorem buildURL_query_merge {E : Type} (b : HttpRequestBuilder E) (u : GoURL) :
    (b.queryParams = [] → b.buildURL = Except.ok b.url) ∧
    (b.queryParams ≠ [] → urlParse b.url = none →
      b.buildURL = Except.error DoErr.invalidURL) ∧
    (b.queryParams ≠ [] → urlParse b.url = some u →
      b.buildURL = Except.ok (urlString
        { u with rawQuery := encodeValues (setAllParams (parseQueryGo u.rawQuery) b.queryParams) })) ∧
    ((b.queryParams.map Prod.fst).Nodup →
      ∀ (q : Values) (k v : String),
        ((k, v) ∈ b.queryParams →
          valuesGet (setAllParams q b.queryParams) k = some [v]) ∧
        (k ∉ b.queryParams.map Prod.fst →
          valuesGet (setAllParams q b.queryParams) k = valuesGet q k)) ∧
    (∀ vs : Values,
      (((List.insertionSort (fun p q : String × List String => strLe p.1 q.1 = true) vs).map
        Prod.fst).Sorted (fun a b => strLe a b = true))) := by
  refine ⟨?_, ?_, ?_, ?_, insertionSort_keys_sorted⟩
  · intro h
    simp [HttpRequestBuilder.buildURL, h]
  · intro h hp
    have hl : ¬(b.queryParams.length = 0) := by
      simpa [List.length_eq_zero] using h
    simp [HttpRequestBuilder.buildURL, hl, hp]
  · intro h hp
    have hl : ¬(b.queryParams.length = 0) := by
      simpa [List.length_eq_zero] using h
    simp [HttpRequestBuilder.buildURL, hl, hp, setAllParams]
  · intro hnd q k v
    exact ⟨fun hm => setAllParams_mem _ _ _ _ hnd hm,
           fun hn => setAllParams_not_mem _ _ _ hn⟩

/-- Witness for C3: on `http://h/p?a=1&b=2` with parameters `b=9`, `c=3`
the composed URL overwrites `b`, keeps `a` and adds `c`. -/
theorem buildURL_query_merge_witness :
    HttpRequestBuilder.buildURL bEx3 =
      Except.ok (urlString
        { base := "http://h/p",
          rawQuery := encodeValues (setAllParams (parseQueryGo "a=1&b=2") [("b", "9"), ("c", "3")]),
          fragment := "" }) ∧
    valuesGet (setAllParams (parseQueryGo "a=1&b=2") [("b", "9"), ("c", "3")]) "b" =
      some ["9"] ∧
    valuesGet (setAllParams (parseQueryGo "a=1&b=2") [("b", "9"), ("c", "3")]) "a" =
      some ["1"] := by
  have h := buildURL_query_merge bEx3 ⟨"http://h/p", "a=1&b=2", ""⟩
  refine ⟨h.2.2.1 (by decide) (by decide), ?_, ?_⟩
  · exact (h.2.2.2.1 (by decide) (parseQueryGo "a=1&b=2") "b" "9").1 (by decide)
  · exact ((h.2.2.2.1 (by decide) (parseQueryGo "a=1&b=2") "a" "1").2 (by decide)).trans
      (by decide)

/-- C4: a successfully serialized JSON body forces
`Content-Type: application/json` and an XML body forces
`Content-Type: application/xml`, overwriting any prior value under that
key; of two body-setting calls the later one wins for both the stored
bytes and the content type. -/
theorem setBody_contentType_override {E : Type} (b : HttpRequestBuilder E)
    (mj mx : Option (List Nat)) (dj dx : List Nat)
    (hj : mj = some dj) (hx : mx = some dx) :
    mapGet (b.SetJSONBody mj).headers "Content-Type" = some "application/json" ∧
    mapGet (b.SetXMLBody mx).headers "Content-Type" = some "application/xml" ∧
    ((b.SetJSONBody mj).SetXMLBody mx).rawBodyBytes = dx ∧
    ((b.SetJSONBody mj).SetXMLBody mx).body = some dx ∧
    mapGet ((b.SetJSONBody mj).SetXMLBody mx).headers "Content-Type" =
      some "application/xml" ∧
    ((b.SetXMLBody mx).SetJSONBody mj).rawBodyBytes = dj ∧
    ((b.SetXMLBody mx).SetJSONBody mj).body = some dj ∧
    mapGet ((b.SetXMLBody mx).SetJSONBody mj).headers "Content-Type" =
      some "application/json" := by
  subst hj hx
  refine ⟨?_, ?_, ?_, ?_, ?_, ?_, ?_, ?_⟩ <;>
    simp [HttpRequestBuilder.SetJSONBody, HttpRequestBuilder.SetXMLBody,
      mapGet_mapSet_self]

/-- Witness for C4 at a builder whose headers already hold a
`Content-Type`. -/
theorem setBody_contentType_override_witness :
    mapGet ((HttpRequestBuilder.SetJSONBody
        { newBuilder Unit "u" "POST" with headers := [("Content-Type", "text/plain")] }
        (some [1]))).headers "Content-Type" = some "application/json" ∧
    mapGet ((HttpRequestBuilder.SetXMLBody
        { newBuilder Unit "u" "POST" with headers := [("Content-Type", "text/plain")] }
        (some [2]))).headers "Content-Type" = some "application/xml" ∧
    ((HttpRequestBuilder.SetXMLBody (HttpRequestBuilder.SetJSONBody
        { newBuilder Unit "u" "POST" with headers := [("Content-Type", "text/plain")] }
        (some [1])) (some [2]))).rawBodyBytes = [2] ∧
    ((HttpRequestBuilder.SetXMLBody (HttpRequestBuilder.SetJSONBody
        { newBuilder Unit "u" "POST" with headers := [("Content-Type", "text/plain")] }
        (some [1])) (some [2]))).body = some [2] ∧
    mapGet ((HttpRequestBuilder.SetXMLBody (HttpRequestBuilder.SetJSONBody
        { newBuilder Unit "u" "POST" with headers := [("Content-Type", "text/plain")] }
        (some [1])) (some [2]))).headers "Content-Type" = some "application/xml" ∧
    ((HttpRequestBuilder.SetJSONBody (HttpRequestBuilder.SetXMLBody
        { newBuilder Unit "u" "POST" with headers := [("Content-Type", "text/plain")] }
        (some [2])) (some [1]))).rawBodyBytes = [1] ∧
    ((HttpRequestBuilder.SetJSONBody (HttpRequestBuilder.SetXMLBody
        { newBuilder Unit "u" "POST" with headers := [("Content-Type", "text/plain")] }
        (some [2])) (some [1]))).body = some [1] ∧
    mapGet ((HttpRequestBuilder.SetJSONBody (HttpRequestBuilder.SetXMLBody
        { newBuilder Unit "u" "POST" with headers := [("Content-Type", "text/plain")] }
        (some [2])) (some [1]))).headers "Content-Type" = some "application/json" :=
  setBody_contentType_override
    { newBuilder Unit "u" "POST" with headers := [("Content-Type", "text/plain")] }
    (some [1]) (some [2]) [1] [2] rfl rfl

/-- C7: when serialization fails (`json.Marshal`/`xml.Marshal` returns an
error), `SetJSONBody`/`SetXMLBody` return the builder unchanged: no body is
stored, no error is raised and the `Content-Type` header is untouched (the
error is only logged). -/
theorem setBody_marshal_failure_noop {E : Type} (b : HttpRequestBuilder E) :
    b.SetJSONBody none = b ∧ b.SetXMLBody none = b :=
  ⟨rfl, rfl⟩

/-- `do` mutates only `response` (and the unmodelled timing field): the
configuration - url, method, headers, query parameters, body and the
strict-decode flag - is untouched. -/
theorem do_preserves_config {E : Type} [Inhabited E] (tr : TransportOutcome)
    (b : HttpRequestBuilder E) :
    (b.Do tr).1.url = b.url ∧ (b.Do tr).1.method = b.method ∧
    (b.Do tr).1.headers = b.headers ∧ (b.Do tr).1.queryParams = b.queryParams ∧
    (b.Do tr).1.body = b.body ∧
    (b.Do tr).1.throwUnmarshalError = b.throwUnmarshalError := by
  cases hb : b.buildURL with
  | error e => simp [HttpRequestBuilder.Do, HttpRequestBuilder.doRaw, hb]
  | ok fu =>
    cases hp : urlParse fu with
    | none => simp [HttpRequestBuilder.Do, HttpRequestBuilder.doRaw, hb, hp]
    | some u =>
      cases tr <;> simp [HttpRequestBuilder.Do, HttpRequestBuilder.doRaw, hb, hp]

/-- C10: with a nil or empty query-parameter mapping, `buildURL` returns the
base URL without parsing it, so even an unparsable base URL yields no
`InvalidURL` at the compose step; the malformed URL is rejected only
afterwards, when `http.NewRequestWithContext` parses it during outbound
request construction. -/
theorem buildURL_empty_params_skips_parse {E : Type} [Inhabited E]
    (b : HttpRequestBuilder E) (tr : TransportOutcome)
    (hq : b.queryParams = []) (hbad : urlParse b.url = none) :
    b.buildURL = Except.ok b.url ∧
    b.Do tr = (b, Except.error DoErr.requestConstructionError) := by
  have h1 : b.buildURL = Except.ok b.url := by
    simp [HttpRequestBuilder.buildURL, hq]
  exact ⟨h1, by simp [HttpRequestBuilder.Do, HttpRequestBuilder.doRaw, h1, hbad]⟩

/-- Witness for C10: a base URL holding a control character has no query
parameters, composes unchanged, and fails only at request construction. -/
theorem buildURL_empty_params_skips_parse_witness :
    HttpRequestBuilder.buildURL (newBuilder Nat "http://h/\x00p" "GET") =
      Except.ok "http://h/\x00p" ∧
    (newBuilder Nat "http://h/\x00p" "GET").Do TransportOutcome.networkError =
      (newBuilder Nat "http://h/\x00p" "GET",
        Except.error DoErr.requestConstructionError) :=
  buildURL_empty_params_skips_parse (newBuilder Nat "http://h/\x00p" "GET")
    TransportOutcome.networkError rfl (by decide)

/-- C9: `Do` alone never decodes and never touches the error-detail
mapping: whenever an execution reaches the transport, the stored response's
`Result` envelope and `ErrorsMap` are at their zero values, whatever the
status code and body. -/
theorem do_leaves_envelope_zero {E : Type} [Inhabited E]
    (b : HttpRequestBuilder E) (tr : TransportOutcome) (fu : String) (u : GoURL)
    (hb : b.buildURL = Except.ok fu) (hp : urlParse fu = some u) :
    ((b.Do tr).1.response.map fun r => (r.Result, r.ErrorsMap)) =
      some (Response.zero E, []) := by
  cases tr <;>
    simp [HttpRequestBuilder.Do, HttpRequestBuilder.doRaw, hb, hp,
      HttpResponse.placeholder]

/-- Witness for C9 at a 500-status response with a non-empty body. -/
theorem do_leaves_envelope_zero_witness :
    (((newBuilder Nat "http://h" "GET").Do
        (TransportOutcome.ok "500 Internal Server Error" 500 [1, 2] false
          [])).1.response.map fun r => (r.Result, r.ErrorsMap)) =
      some (Response.zero Nat, []) :=
  do_leaves_envelope_zero (newBuilder Nat "http://h" "GET")
    (TransportOutcome.ok "500 Internal Server Error" 500 [1, 2] false [])
    "http://h" ⟨"http://h", "", ""⟩ rfl (by decide)

/-- C5: a transport-level failure aborts `do` with `NetworkError`; the
stored response holds only the resolved URL and method (empty status line,
zero status code, empty body, zero envelope), and `GetResult` propagates
the error at once - its outcome does not depend on the decoder, so no
decoding is attempted. -/
theorem networkError_propagation {E : Type} [Inhabited E]
    (b : HttpRequestBuilder E) (fu : String) (u : GoURL)
    (hb : b.buildURL = Except.ok fu) (hp : urlParse fu = some u) :
    b.Do TransportOutcome.networkError =
      ({ b with response := some (HttpResponse.placeholder E fu b.method) },
        Except.error DoErr.networkError) ∧
    (HttpResponse.placeholder E fu b.method).Status = "" ∧
    (HttpResponse.placeholder E fu b.method).StatusCode = 0 ∧
    (HttpResponse.placeholder E fu b.method).Body = [] ∧
    (HttpResponse.placeholder E fu b.method).Result = Response.zero E ∧
    (∀ decode : List Nat → Response E × Bool,
      b.GetResult TransportOutcome.networkError decode =
        ({ b with response := some (HttpResponse.placeholder E fu b.method) },
          none, some DoErr.networkError)) := by
  have h1 : b.Do TransportOutcome.networkError =
      ({ b with response := some (HttpResponse.placeholder E fu b.method) },
        Except.error DoErr.networkError) := by
    simp [HttpRequestBuilder.Do, HttpRequestBuilder.doRaw, hb, hp]
  refine ⟨h1, rfl, rfl, rfl, rfl, fun decode => ?_⟩
  simp [HttpRequestBuilder.GetResult, h1]

/-- Witness for C5 with two decoders that disagree everywhere: the outcome
is the same, so no decoding happened. -/
theorem networkError_propagation_witness :
    (newBuilder Nat "http://h" "GET").GetResult TransportOutcome.networkError
      (fun _ => (Response.zero Nat, true)) =
      ({ newBuilder Nat "http://h" "GET" with
          response := some (HttpResponse.placeholder Nat "http://h" "GET") },
        none, some DoErr.networkError) ∧
    (newBuilder Nat "http://h" "GET").GetResult TransportOutcome.networkError
      (fun _ => (⟨true, 7⟩, false)) =
      ({ newBuilder Nat "http://h" "GET" with
          response := some (HttpResponse.placeholder Nat "http://h" "GET") },
        none, some DoErr.networkError) :=
  ⟨(networkError_propagation (newBuilder Nat "http://h" "GET") "http://h"
      ⟨"http://h", "", ""⟩ rfl (by decide)).2.2.2.2.2 _,
   (networkError_propagation (newBuilder Nat "http://h" "GET") "http://h"
      ⟨"http://h", "", ""⟩ rfl (by decide)).2.2.2.2.2 _⟩

/-- C6 counterexample: the transport delivers header `X-Test: y`, yet the
stored/returned `HttpResponse` has an empty `Headers` mapping - `do` never
copies `resp.Header`, refuting the claim that the result carries the
response headers of the received response. -/
theorem response_headers_not_copied_cex :
    (bW.Do (TransportOutcome.ok "200 OK" 200 [14] false [("X-Test", "y")])).2 =
      Except.ok
        { Status := "200 OK", Body := [14], StatusCode := 200, Url := "http://h",
          Method := "GET", Headers := [], Result := Response.zero Nat,
          ErrorsMap := [] } ∧
    ([] : StrMap) ≠ [("X-Test", "y")] :=
  ⟨by decide, by decide⟩

/-- C6 (amended): for every successful round trip the returned
`ExecutionResult` records status line, status code and raw bytes, but its
response-headers mapping is left at its zero value (it is never populated
from the received response) and its error-detail mapping is always
empty. -/
theorem execution_result_headers_zero {E : Type} [Inhabited E]
    (b b1 : HttpRequestBuilder E) (st : String) (code : Nat) (bytes : List Nat)
    (rerr : Bool) (hdrs : StrMap) (resp : HttpResponse E)
    (hdo : b.Do (TransportOutcome.ok st code bytes rerr hdrs) = (b1, Except.ok resp)) :
    resp.Status = st ∧ resp.StatusCode = code ∧ resp.Body = bytes ∧
    resp.Headers = [] ∧ resp.ErrorsMap = [] := by
  revert hdo
  cases hb : b.buildURL with
  | error e => simp [HttpRequestBuilder.Do, HttpRequestBuilder.doRaw, hb]
  | ok fu =>
    cases hp : urlParse fu with
    | none => simp [HttpRequestBuilder.Do, HttpRequestBuilder.doRaw, hb, hp]
    | some u =>
      intro hdo
      simp only [HttpRequestBuilder.Do, HttpRequestBuilder.doRaw, hb, hp] at hdo
      injection hdo with h1 h2
      injection h2 with h3
      subst h3
      exact ⟨rfl, rfl, rfl, rfl, rfl⟩

/-- Witness for the amended C6 at a concrete execution. -/
theorem execution_result_headers_zero_witness :
    ({ Status := "200 OK", Body := [14], StatusCode := 200, Url := "http://h",
        Method := "GET", Headers := [], Result := Response.zero Nat,
        ErrorsMap := [] } : HttpResponse Nat).Status = "200 OK" ∧
    ({ Status := "200 OK", Body := [14], StatusCode := 200, Url := "http://h",
        Method := "GET", Headers := [], Result := Response.zero Nat,
        ErrorsMap := [] } : HttpResponse Nat).StatusCode = 200 ∧
    ({ Status := "200 OK", Body := [14], StatusCode := 200, Url := "http://h",
        Method := "GET", Headers := [], Result := Response.zero Nat,
        ErrorsMap := [] } : HttpResponse Nat).Body = [14] ∧
    ({ Status := "200 OK", Body := [14], StatusCode := 200, Url := "http://h",
        Method := "GET", Headers := [], Result := Response.zero Nat,
        ErrorsMap := [] } : HttpResponse Nat).Headers = [] ∧
    ({ Status := "200 OK", Body := [14], StatusCode := 200, Url := "http://h",
        Method := "GET", Headers := [], Result := Response.zero Nat,
        ErrorsMap := [] } : HttpResponse Nat).ErrorsMap = [] :=
  execution_result_headers_zero bW
    { bW with response := some { Status := "200 OK", Body := [14], StatusCode := 200, Url := "http://h", Method := "GET", Headers := [], Result := Response.zero Nat, ErrorsMap := [] } }
    "200 OK" 200 [14] false [("X-Test", "y")]
    { Status := "200 OK", Body := [14], StatusCode := 200, Url := "http://h",
      Method := "GET", Headers := [], Result := Response.zero Nat, ErrorsMap := [] }
    (by decide)

/-- C8 counterexample: `io.ReadAll` fails after delivering byte `55`; the
source keeps the partially read bytes (`body, _ :=` drops only the error),
so the stored raw body is `[55]`, not the empty byte string the claim
asserts. -/
theorem bodyRead_failure_partial_cex :
    (bW.Do (TransportOutcome.ok "200 OK" 200 [55] true [])).2 =
      Except.ok
        { Status := "200 OK", Body := [55], StatusCode := 200, Url := "http://h",
          Method := "GET", Headers := [], Result := Response.zero Nat,
          ErrorsMap := [] } ∧
    [55] ≠ ([] : List Nat) :=
  ⟨by decide, by decide⟩

/-- C8 (amended): a body-read failure is never surfaced as an error - the
call still succeeds - and the stored raw body is exactly the bytes
`io.ReadAll` produced before failing (empty only when nothing was read),
while status line and status code are recorded unaffected. -/
theorem bodyRead_failure_swallowed {E : Type} [Inhabited E]
    (b : HttpRequestBuilder E) (st : String) (code : Nat) (bytes : List Nat)
    (hdrs : StrMap) (fu : String) (u : GoURL)
    (hb : b.buildURL = Except.ok fu) (hp : urlParse fu = some u) :
    b.Do (TransportOutcome.ok st code bytes true hdrs) =
      ({ b with response := some { HttpResponse.placeholder E fu b.method with Status := st, StatusCode := code, Body := bytes } },
        Except.ok { HttpResponse.placeholder E fu b.method with Status := st, StatusCode := code, Body := bytes }) := by
  simp [HttpRequestBuilder.Do, HttpRequestBuilder.doRaw, hb, hp]

/-- Witness for the amended C8: read failed after one byte, no error, byte
retained. -/
theorem bodyRead_failure_swallowed_witness :
    bW.Do (TransportOutcome.ok "200 OK" 200 [55] true []) =
      ({ bW with response := some { HttpResponse.placeholder Nat "http://h" "GET" with Status := "200 OK", StatusCode := 200, Body := [55] } },
        Except.ok { HttpResponse.placeholder Nat "http://h" "GET" with Status := "200 OK", StatusCode := 200, Body := [55] }) :=
  bodyRead_failure_swallowed bW "200 OK" 200 [55] [] "http://h"
    ⟨"http://h", "", ""⟩ rfl (by decide)

/-- C1: once the round trip succeeds and the body decodes (or strict mode
is off), `GetResult` classifies by status code: at 500 and above it
returns no result and an error carrying method, resolved URL and status;
below 500 (client errors in 400..499 included) it returns the fully
populated result with no error. -/
theorem getResult_status_classification {E : Type} [Inhabited E]
    (b b1 : HttpRequestBuilder E) (tr : TransportOutcome)
    (decode : List Nat → Response E × Bool) (resp : HttpResponse E)
    (hdo : b.Do tr = (b1, Except.ok resp))
    (hdec : (decode resp.Body).2 = false ∨ b.throwUnmarshalError = false) :
    (500 ≤ resp.StatusCode →
      (b.GetResult tr decode).2.1 = none ∧
      (b.GetResult tr decode).2.2 =
        some (DoErr.serverError b.method resp.Url resp.StatusCode)) ∧
    (resp.StatusCode < 500 →
      (b.GetResult tr decode).2.2 = none ∧
      (b.GetResult tr decode).2.1 =
        some { resp with Result := (decode resp.Body).1 }) := by
  have hbm : b1.method = b.method := by
    have h := (do_preserves_config tr b).2.1
    rw [hdo] at h; exact h
  have hbt : b1.throwUnmarshalError = b.throwUnmarshalError := by
    have h := (do_preserves_config tr b).2.2.2.2.2
    rw [hdo] at h; exact h
  cases hd : (decode resp.Body).2 with
  | false =>
    constructor
    · intro h500
      simp [HttpRequestBuilder.GetResult, hdo, hd, h500, hbm]
    · intro hlt
      have hn : ¬ 500 ≤ resp.StatusCode := by omega
      simp [HttpRequestBuilder.GetResult, hdo, hd, hn]
  | true =>
    have hflag : b1.throwUnmarshalError = false := by
      rcases hdec with hcontr | hfalse
      · rw [hd] at hcontr; exact absurd hcontr (by simp)
      · rw [hbt, hfalse]
    constructor
    · intro h500
      simp [HttpRequestBuilder.GetResult, hdo, hd, hflag, h500, hbm]
    · intro hlt
      have hn : ¬ 500 ≤ resp.StatusCode := by omega
      simp [HttpRequestBuilder.GetResult, hdo, hd, hflag, hn]

/-- Witness for C1: a 503 response turns into a server error with no
result; a 404 response returns the populated result with no error. -/
theorem getResult_status_classification_witness :
    (bW.GetResult (TransportOutcome.ok "503 Service Unavailable" 503 [] false [])
        decodeConst).2.1 = none ∧
    (bW.GetResult (TransportOutcome.ok "503 Service Unavailable" 503 [] false [])
        decodeConst).2.2 = some (DoErr.serverError "GET" "http://h" 503) ∧
    (bW.GetResult (TransportOutcome.ok "404 Not Found" 404 [] false [])
        decodeConst).2.2 = none ∧
    (bW.GetResult (TransportOutcome.ok "404 Not Found" 404 [] false [])
        decodeConst).2.1 =
      some { Status := "404 Not Found", Body := [], StatusCode := 404,
             Url := "http://h", Method := "GET", Headers := [],
             Result := ⟨true, 1⟩, ErrorsMap := [] } := by
  have h503 := getResult_status_classification bW
    { bW with response := some { Status := "503 Service Unavailable", Body := [], StatusCode := 503, Url := "http://h", Method := "GET", Headers := [], Result := Response.zero Nat, ErrorsMap := [] } }
    (TransportOutcome.ok "503 Service Unavailable" 503 [] false []) decodeConst
    { Status := "503 Service Unavailable", Body := [], StatusCode := 503,
      Url := "http://h", Method := "GET", Headers := [],
      Result := Response.zero Nat, ErrorsMap := [] }
    (by decide) (Or.inl (by decide))
  have h404 := getResult_status_classification bW
    { bW with response := some { Status := "404 Not Found", Body := [], StatusCode := 404, Url := "http://h", Method := "GET", Headers := [], Result := Response.zero Nat, ErrorsMap := [] } }
    (TransportOutcome.ok "404 Not Found" 404 [] false []) decodeConst
    { Status := "404 Not Found", Body := [], StatusCode := 404,
      Url := "http://h", Method := "GET", Headers := [],
      Result := Response.zero Nat, ErrorsMap := [] }
    (by decide) (Or.inl (by decide))
  exact ⟨(h503.1 (by decide)).1, (h503.1 (by decide)).2,
    (h404.2 (by decide)).1, (h404.2 (by decide)).2⟩

/-- C2 counterexample: with strict decoding off, a body such as
`\x7b"success":true,"data":"x"\x7d` decoded into `Response[int]` makes
`json.Unmarshal` set `success` before reporting the type error on `data`,
so `b.response.Result = r` stores an envelope with `Success = true` - not
the zero value the claim asserts. -/
theorem getResult_strictOff_partial_envelope_cex :
    ((bW.SetThrowUnmarshalError false).GetResult
        (TransportOutcome.ok "200 OK" 200 partialJSONBody false [])
        decodePartial).2.1 =
      some { Status := "200 OK", Body := partialJSONBody, StatusCode := 200,
             Url := "http://h", Method := "GET", Headers := [],
             Result := ⟨true, 0⟩, ErrorsMap := [] } ∧
    (⟨true, 0⟩ : Response Nat) ≠ Response.zero Nat :=
  ⟨by decide, by decide⟩

/-- C2 (amended): when the body fails to unmarshal into the envelope,
strict mode on (the default) makes `GetResult` abort with the unmarshal
error and return no result, whatever the status code; with strict mode off
the decode step raises no error and the stored envelope is exactly the
value the unmarshal step left in the zero-initialized target - the zero
value when decoding made no progress (e.g. a non-JSON body), but possibly
partially populated after a field-level type error. -/
theorem getResult_unmarshal_strictness {E : Type} [Inhabited E]
    (b b1 : HttpRequestBuilder E) (tr : TransportOutcome)
    (decode : List Nat → Response E × Bool) (resp : HttpResponse E)
    (hdo : b.Do tr = (b1, Except.ok resp))
    (hd : (decode resp.Body).2 = true) :
    (b.throwUnmarshalError = true →
      b.GetResult tr decode = (b1, none, some DoErr.unmarshalError)) ∧
    (b.throwUnmarshalError = false →
      (b.GetResult tr decode).1.response =
        some { resp with Result := (decode resp.Body).1 } ∧
      (b.GetResult tr decode).2.2 ≠ some DoErr.unmarshalError ∧
      (resp.StatusCode < 500 →
        b.GetResult tr decode =
          ({ b1 with response := some { resp with Result := (decode resp.Body).1 } },
            some { resp with Result := (decode resp.Body).1 }, none))) := by
  have hbt : b1.throwUnmarshalError = b.throwUnmarshalError := by
    have h := (do_preserves_config tr b).2.2.2.2.2
    rw [hdo] at h; exact h
  constructor
  · intro htrue
    simp [HttpRequestBuilder.GetResult, hdo, hd, hbt, htrue]
  · intro hfalse
    have hflag : b1.throwUnmarshalError = false := by rw [hbt, hfalse]
    refine ⟨?_, ?_, ?_⟩
    · by_cases h5 : 500 ≤ resp.StatusCode <;>
        simp [HttpRequestBuilder.GetResult, hdo, hd, hflag, h5]
    · by_cases h5 : 500 ≤ resp.StatusCode <;>
        simp [HttpRequestBuilder.GetResult, hdo, hd, hflag, h5]
    · intro hlt
      have hn : ¬ 500 ≤ resp.StatusCode := by omega
      simp [HttpRequestBuilder.GetResult, hdo, hd, hflag, hn]

/-- Witness for the amended C2: with the default strict flag a
no-progress decode aborts with the unmarshal error even on a 503 status;
with the flag off a partially-decoded 200 response comes back with the
partially populated envelope and no error. -/
theorem getResult_unmarshal_strictness_witness :
    bW.GetResult (TransportOutcome.ok "503 Service Unavailable" 503 [72] false [])
      decodeGarbage =
      ({ bW with response := some { Status := "503 Service Unavailable", Body := [72], StatusCode := 503, Url := "http://h", Method := "GET", Headers := [], Result := Response.zero Nat, ErrorsMap := [] } },
        none, some DoErr.unmarshalError) ∧
    (bW.SetThrowUnmarshalError false).GetResult
      (TransportOutcome.ok "200 OK" 200 partialJSONBody false []) decodePartial =
      ({ bW.SetThrowUnmarshalError false with response := some { Status := "200 OK", Body := partialJSONBody, StatusCode := 200, Url := "http://h", Method := "GET", Headers := [], Result := (⟨true, 0⟩ : Response Nat), ErrorsMap := [] } },
        some { Status := "200 OK", Body := partialJSONBody, StatusCode := 200,
               Url := "http://h", Method := "GET", Headers := [],
               Result := (⟨true, 0⟩ : Response Nat), ErrorsMap := [] },
        none) := by
  have hstrict := getResult_unmarshal_strictness bW
    { bW with response := some { Status := "503 Service Unavailable", Body := [72], StatusCode := 503, Url := "http://h", Method := "GET", Headers := [], Result := Response.zero Nat, ErrorsMap := [] } }
    (TransportOutcome.ok "503 Service Unavailable" 503 [72] false []) decodeGarbage
    { Status := "503 Service Unavailable", Body := [72], StatusCode := 503,
      Url := "http://h", Method := "GET", Headers := [],
      Result := Response.zero Nat, ErrorsMap := [] }
    (by decide) rfl
  have hloose := getResult_unmarshal_strictness (bW.SetThrowUnmarshalError false)
    { bW.SetThrowUnmarshalError false with response := some { Status := "200 OK", Body := partialJSONBody, StatusCode := 200, Url := "http://h", Method := "GET", Headers := [], Result := Response.zero Nat, ErrorsMap := [] } }
    (TransportOutcome.ok "200 OK" 200 partialJSONBody false []) decodePartial
    { Status := "200 OK", Body := partialJSONBody, StatusCode := 200,
      Url := "http://h", Method := "GET", Headers := [],
      Result := Response.zero Nat, ErrorsMap := [] }
    (by decide) rfl
  exact ⟨hstrict.1 rfl, ((hloose.2 rfl).2.2) (by decide)⟩
